import Mathlib

/-!
Shallow embedding of the multimodal search core of the akashi-api repository
(`app/services/search_service.py`), together with proofs checking the
natural-language specification of that module against the code.

Conventions of the embedding:
* Python floats (relevance scores, similarities, RRF scores) are modelled as
  rationals (`ℚ`); the arithmetic in the scoring path is exact in `ℚ`.
* SQL tables are lists of row structures; the PostgreSQL full-text machinery
  (`plainto_tsquery` / `ts_rank` / `ts_headline`), `ILIKE`, the pgvector
  distance operator and the external face-embedding service are oracles:
  arbitrary function fields of the `DB` structure.  Joins, `WHERE` clauses,
  `ORDER BY` and `LIMIT` are modelled concretely.
* Python dicts keyed by asset id (`results_by_asset`) are association lists in
  insertion order, mirroring Python's insertion-ordered dict semantics.
* `sorted(..., reverse=True)` (a stable sort) is modelled with
  `List.insertionSort` on the corresponding "greater or equal" relation, which
  is likewise stable.
* Python truthiness of optional values (`if filters.asset_type:` treats both
  `None` and `""` as false, `if filters.min_duration_ms:` treats `0` as false)
  is modelled explicitly.
* Wall-clock timing (`search_time_ms`) is not modelled.
-/

namespace Akashi

/-- Entity identifiers (`UUID` in the source). -/
abbrev UUID := Nat

/-- The five source kinds of `MatchInfo.type`. -/
inductive SourceType where
  | transcription
  | face
  | scene
  | keyword
  | metadata
deriving DecidableEq, Repr

/-- `app.schemas.search.MatchInfo`: one hit from one source for one entity. -/
structure MatchInfo where
  type : SourceType
  timecode_ms : Option Int := none
  text : Option String := none
  description : Option String := none
  person_name : Option String := none
  keyword : Option String := none
  score : ℚ
deriving DecidableEq, Repr

/-- `app.schemas.search.SearchMode`: the enabled-source booleans. -/
structure SearchMode where
  transcription : Bool := true
  face : Bool := true
  scene : Bool := true
  keywords : Bool := true
  metadata : Bool := true
deriving DecidableEq, Repr

/-- `app.schemas.search.SearchFilters` (dates as integer timestamps). -/
structure SearchFilters where
  asset_type : Option String := none
  status : Option String := none
  date_from : Option Int := none
  date_to : Option Int := none
  collections : Option (List UUID) := none
  persons : Option (List UUID) := none
  min_duration_ms : Option Int := none
  max_duration_ms : Option Int := none
deriving DecidableEq, Repr

/-- `app.schemas.search.MultimodalSearchRequest`. -/
structure MultimodalSearchRequest where
  query : String
  modes : SearchMode := {}
  filters : SearchFilters := {}
  face_image : Option String := none
  limit : Nat := 20
  offset : Nat := 0
deriving DecidableEq, Repr

/-- One per-adapter candidate: the result dict built by each `_search_*`
method (`asset_id`, display fields, a `MatchInfo` under key `"match"`, and the
source rank score under key `"rank"`).  Display fields a given adapter does not
set are `none` (`dict.get` returns `None` for them). -/
structure Candidate where
  asset_id : UUID
  title : Option String := none
  description : Option String := none
  asset_type : Option String := none
  status : Option String := none
  duration_ms : Option Int := none
  created_at : Option Int := none
  thumbnail_url : Option String := none
  matchInfo : MatchInfo
  rank : ℚ
deriving DecidableEq, Repr

/-- The per-entity aggregate record built by `_merge_results`
(`results_by_asset[asset_id]`).  `ranks` is the `"ranks"` dict as an
association list in insertion order. -/
structure AssetRecord where
  asset_id : UUID
  title : Option String
  description : Option String
  asset_type : Option String
  status : Option String
  duration_ms : Option Int
  created_at : Option Int
  thumbnail_url : Option String
  matchList : List MatchInfo
  ranks : List (SourceType × ℚ)
deriving DecidableEq, Repr

/-- `app.schemas.search.MultimodalSearchResult` (field values exactly as the
formatting loop in `search` produces them from the aggregate record). -/
structure MultimodalSearchResult where
  asset_id : UUID
  title : Option String
  description : Option String
  asset_type : Option String
  status : Option String
  thumbnail_url : Option String
  duration_ms : Option Int
  matchList : List MatchInfo
  combined_score : ℚ
  created_at : Option Int
deriving DecidableEq, Repr

/-- `app.schemas.search.MultimodalSearchResponse`, without the unmodelled
wall-clock `search_time_ms`. -/
structure MultimodalSearchResponse where
  query : String
  total : Nat
  limit : Nat
  offset : Nat
  results : List MultimodalSearchResult
  modes_used : List String
deriving DecidableEq, Repr

/-- `app.schemas.search.SearchSuggestion`. -/
structure SearchSuggestion where
  text : String
  type : String
  count : Nat
deriving DecidableEq, Repr

/-! ### Database rows and the `DB` structure -/

/-- A row of the `assets` table (the columns the search module reads). -/
structure Asset where
  id : UUID
  tenant_id : UUID
  title : String
  description : Option String := none
  asset_type : String
  status : String
  duration_ms : Option Int := none
  created_at : Int
deriving DecidableEq, Repr

/-- A row of `asset_transcriptions`; text content is reached via oracles keyed
by the row id. -/
structure TranscriptionRow where
  id : Nat
  asset_id : UUID
  tenant_id : UUID
deriving DecidableEq, Repr

/-- A row of `asset_scene_descriptions`. -/
structure SceneRow where
  id : Nat
  asset_id : UUID
  tenant_id : UUID
  timecode_start_ms : Int
  description : String
deriving DecidableEq, Repr

/-- A row of `asset_keywords` (manual keywords). -/
structure KeywordRow where
  asset_id : UUID
  tenant_id : UUID
  keyword : String
  keyword_normalized : String
  start_ms : Option Int := none
deriving DecidableEq, Repr

/-- A row of `ai_extracted_keywords`. -/
structure AiKeywordRow where
  asset_id : UUID
  tenant_id : UUID
  keyword : String
  keyword_normalized : String
  start_ms : Option Int := none
  confidence : Option ℚ := none
deriving DecidableEq, Repr

/-- A row of `asset_faces`. -/
structure FaceRow where
  asset_id : UUID
  tenant_id : UUID
  timecode_ms : Option Int := none
  person_id : Option UUID := none
  face_embedding : Option (List ℚ) := none
deriving DecidableEq, Repr

/-- A row of `persons`. -/
structure Person where
  id : UUID
  tenant_id : UUID
  name : String
  appearance_count : Nat
deriving DecidableEq, Repr

/-- The queryable store plus the external oracles the SQL delegates to:
full-text matching/ranking/headlining, `ILIKE`, pgvector distance, and the
face-embedding service (which may fail). -/
structure DB where
  assets : List Asset := []
  transcriptions : List TranscriptionRow := []
  scenes : List SceneRow := []
  asset_keywords : List KeywordRow := []
  ai_keywords : List AiKeywordRow := []
  faces : List FaceRow := []
  persons : List Person := []
  tsMatchTrans : Nat → String → Bool := fun _ _ => false
  tsRankTrans : Nat → String → ℚ := fun _ _ => 0
  tsHeadlineTrans : Nat → String → String := fun _ _ => ""
  tsMatchScene : Nat → String → Bool := fun _ _ => false
  tsRankScene : Nat → String → ℚ := fun _ _ => 0
  tsMatchAsset : UUID → String → Bool := fun _ _ => false
  tsRankAsset : UUID → String → ℚ := fun _ _ => 0
  tsHeadlineAsset : UUID → String → String := fun _ _ => ""
  ilike : String → String → Bool := fun _ _ => false
  embedImage : String → Except String (List ℚ) := fun _ => Except.error "no face"
  vecDist : List ℚ → List ℚ → ℚ := fun _ _ => 0

/-! ### Python truthiness of optional filter values -/

/-- Truthiness of `Optional[str]`: `None` and `""` are falsy. -/
def strTruthy : Option String → Bool
  | none => false
  | some s => !s.isEmpty

/-- Truthiness of `Optional[int]`: `None` and `0` are falsy. -/
def intTruthy : Option Int → Bool
  | none => false
  | some v => decide (v ≠ 0)

/-- The conjunction of the SQL conditions `_add_filters` appends, evaluated on
the joined `assets` row.  Each condition is appended only when the filter value
is truthy, exactly as in the source; a SQL comparison against a NULL
`duration_ms` is NULL, which excludes the row. -/
def filterPasses (f : SearchFilters) (a : Asset) : Bool :=
  (!strTruthy f.asset_type || a.asset_type == f.asset_type.getD "") &&
  (!strTruthy f.status || a.status == f.status.getD "") &&
  (!f.date_from.isSome || decide (f.date_from.getD 0 ≤ a.created_at)) &&
  (!f.date_to.isSome || decide (a.created_at ≤ f.date_to.getD 0)) &&
  (!intTruthy f.min_duration_ms ||
    (match a.duration_ms with
     | some d => decide (f.min_duration_ms.getD 0 ≤ d)
     | none => false)) &&
  (!intTruthy f.max_duration_ms ||
    (match a.duration_ms with
     | some d => decide (d ≤ f.max_duration_ms.getD 0)
     | none => false))

/-! ### Reciprocal Rank Fusion (`_calculate_rrf_score`) -/

/-- The RRF constant `self.rrf_k` set in `SearchService.__init__`. -/
def rrf_k : ℚ := 60

/-- The accumulation loop `for rank, match in enumerate(sorted_matches, 1):
rrf_score += 1.0 / (self.rrf_k + rank)`, with `rank` the enumeration counter
starting at `i`. -/
def rrfLoop (k : ℚ) : Nat → List MatchInfo → ℚ
  | _, [] => 0
  | i, _ :: rest => 1 / (k + i) + rrfLoop k (i + 1) rest

/-- `SearchService._calculate_rrf_score`: sort the matches by score
descending, sum `1/(k + rank)` over ranks `1..N`, and multiply by the
multi-source boost `1 + (len(matches) - 1) * 0.2`. -/
def calculateRrfScore (matchList : List MatchInfo) : ℚ :=
  if matchList.isEmpty then 0
  else
    let sorted_matches := matchList.insertionSort (fun a b => b.score ≤ a.score)
    let rrf_score := rrfLoop rrf_k 1 sorted_matches
    let source_boost : ℚ := 1 + ((matchList.length : ℚ) - 1) * (2 / 10)
    rrf_score * source_boost

/-! ### Suggestions (`get_suggestions`) -/

/-- The "greater or equal count" ordering used to model `ORDER BY count DESC`
in the suggestion queries. -/
def countGe (x y : String × Nat) : Prop := y.2 ≤ x.2

instance : DecidableRel countGe := fun x y =>
  inferInstanceAs (Decidable (y.2 ≤ x.2))

instance : IsTotal (String × Nat) countGe :=
  ⟨fun x y => le_total y.2 x.2⟩

instance : IsTrans (String × Nat) countGe :=
  ⟨fun _ _ _ h h' => le_trans h' h⟩

/-- `GROUP BY keyword` with `COUNT(*)`: one pair per distinct keyword of the
filtered rows, with its multiplicity. -/
def keywordCounts (rows : List KeywordRow) : List (String × Nat) :=
  ((rows.map (·.keyword)).dedup).map
    (fun k => (k, (rows.filter (·.keyword == k)).length))

/-- The first suggestion query: matching `asset_keywords` rows grouped by
keyword with counts, ordered by count descending, `LIMIT lim`. -/
def suggestKeywords (db : DB) (tenant_id : UUID) (pattern : String)
    (lim : Nat) : List (String × Nat) :=
  let rows := db.asset_keywords.filter
    (fun k => k.tenant_id == tenant_id && db.ilike k.keyword_normalized pattern)
  ((keywordCounts rows).insertionSort countGe).take lim

/-- The second suggestion query: matching `persons` rows as
`(name, appearance_count)`, ordered by `appearance_count` descending,
`LIMIT lim`. -/
def suggestPersons (db : DB) (tenant_id : UUID) (pattern : String)
    (lim : Nat) : List (String × Nat) :=
  let rows := db.persons.filter
    (fun p => p.tenant_id == tenant_id && db.ilike p.name pattern)
  ((rows.map (fun p => (p.name, p.appearance_count))).insertionSort countGe).take lim

/-- The keyword segment of the suggestion list: the first query's rows (capped
at `limit // 2` by the SQL `LIMIT`) tagged `"keyword"`. -/
def keywordSuggestionsOf (db : DB) (query : String) (tenant_id : UUID)
    (limit : Nat) : List SearchSuggestion :=
  (suggestKeywords db tenant_id ("%" ++ query.toLower ++ "%") (limit / 2)).map
    (fun r => { text := r.1, type := "keyword", count := r.2 : SearchSuggestion })

/-- The person segment of the suggestion list: the second query's rows (capped
at `limit // 2` by the SQL `LIMIT`) tagged `"person"`. -/
def personSuggestionsOf (db : DB) (query : String) (tenant_id : UUID)
    (limit : Nat) : List SearchSuggestion :=
  (suggestPersons db tenant_id ("%" ++ query ++ "%") (limit / 2)).map
    (fun r => { text := r.1, type := "person", count := r.2 : SearchSuggestion })

/-- `SearchService.get_suggestions`: keyword suggestions, then person
suggestions, the concatenation truncated to `limit`.  Note the keyword pattern
lowercases the query while the person pattern does not, as in the source. -/
def getSuggestions (db : DB) (query : String) (tenant_id : UUID)
    (limit : Nat) : List SearchSuggestion :=
  (keywordSuggestionsOf db query tenant_id limit ++
    personSuggestionsOf db query tenant_id limit).take limit

/-! ### The five source search adapters -/

/-- SQL inner join: the rows of `left` paired with every row of `assets`
whose `id` equals the row's `asset_id`. -/
def joinAssets {α : Type} (left : List α) (asset_id_of : α → UUID)
    (assets : List Asset) : List (α × Asset) :=
  left.flatMap (fun t => (assets.filter (fun a => a.id == asset_id_of t)).map (fun a => (t, a)))

/-- `SearchService._search_transcriptions`: full-text match on
`asset_transcriptions` joined to `assets`, with `_add_filters` conditions,
`ORDER BY rank DESC LIMIT 100`. -/
def searchTranscriptions (db : DB) (query : String) (tenant_id : UUID)
    (filters : SearchFilters) : List Candidate :=
  let joined := joinAssets db.transcriptions (·.asset_id) db.assets
  let rows := joined.filter (fun ta =>
    ta.1.tenant_id == tenant_id && db.tsMatchTrans ta.1.id query &&
      filterPasses filters ta.2)
  let sorted := rows.insertionSort
    (fun x y => db.tsRankTrans y.1.id query ≤ db.tsRankTrans x.1.id query)
  (sorted.take 100).map (fun ta =>
    { asset_id := ta.1.asset_id
      title := some ta.2.title
      description := ta.2.description
      asset_type := some ta.2.asset_type
      status := some ta.2.status
      duration_ms := ta.2.duration_ms
      created_at := some ta.2.created_at
      matchInfo :=
        { type := .transcription
          text := some (db.tsHeadlineTrans ta.1.id query)
          score := db.tsRankTrans ta.1.id query }
      rank := db.tsRankTrans ta.1.id query })

/-- `SearchService._search_scenes`: full-text match on
`asset_scene_descriptions` joined to `assets`, with `_add_filters` conditions,
`ORDER BY rank DESC LIMIT 100`; the scene description snippet is truncated to
200 characters. -/
def searchScenes (db : DB) (query : String) (tenant_id : UUID)
    (filters : SearchFilters) : List Candidate :=
  let joined := joinAssets db.scenes (·.asset_id) db.assets
  let rows := joined.filter (fun sa =>
    sa.1.tenant_id == tenant_id && db.tsMatchScene sa.1.id query &&
      filterPasses filters sa.2)
  let sorted := rows.insertionSort
    (fun x y => db.tsRankScene y.1.id query ≤ db.tsRankScene x.1.id query)
  (sorted.take 100).map (fun sa =>
    { asset_id := sa.1.asset_id
      title := some sa.2.title
      asset_type := some sa.2.asset_type
      status := some sa.2.status
      duration_ms := sa.2.duration_ms
      created_at := some sa.2.created_at
      matchInfo :=
        { type := .scene
          timecode_ms := some sa.1.timecode_start_ms
          description := some (sa.1.description.take 200)
          score := db.tsRankScene sa.1.id query }
      rank := db.tsRankScene sa.1.id query })

/-- The Python rank fallback `float(row.rank) if row.rank else 0.5`: `None`
and `0.0` are both falsy and become `0.5`. -/
def rankOr05 : Option ℚ → ℚ
  | none => 1 / 2
  | some r => if r = 0 then 1 / 2 else r

/-- `SearchService._search_keywords`, first sub-query: substring match on
manual `asset_keywords` (fixed rank `1.0`), with `_add_filters` conditions,
`LIMIT 50` (no ORDER BY in the source). -/
def searchManualKeywords (db : DB) (query : String) (tenant_id : UUID)
    (filters : SearchFilters) : List Candidate :=
  let joined := joinAssets db.asset_keywords (·.asset_id) db.assets
  let rows := joined.filter (fun ka =>
    ka.1.tenant_id == tenant_id &&
      db.ilike ka.1.keyword_normalized ("%" ++ query.toLower ++ "%") &&
      filterPasses filters ka.2)
  (rows.take 50).map (fun ka =>
    { asset_id := ka.1.asset_id
      title := some ka.2.title
      asset_type := some ka.2.asset_type
      status := some ka.2.status
      duration_ms := ka.2.duration_ms
      created_at := some ka.2.created_at
      matchInfo :=
        { type := .keyword
          keyword := some ka.1.keyword
          timecode_ms := ka.1.start_ms
          score := rankOr05 (some 1) }
      rank := rankOr05 (some 1) })

/-- `SearchService._search_keywords`, second sub-query: substring match on
`ai_extracted_keywords` (rank = stored confidence, falling back to `0.5` when
falsy), with `_add_filters` conditions, `LIMIT 50`. -/
def searchAiKeywords (db : DB) (query : String) (tenant_id : UUID)
    (filters : SearchFilters) : List Candidate :=
  let joined := joinAssets db.ai_keywords (·.asset_id) db.assets
  let rows := joined.filter (fun ka =>
    ka.1.tenant_id == tenant_id &&
      db.ilike ka.1.keyword_normalized ("%" ++ query.toLower ++ "%") &&
      filterPasses filters ka.2)
  (rows.take 50).map (fun ka =>
    { asset_id := ka.1.asset_id
      title := some ka.2.title
      asset_type := some ka.2.asset_type
      status := some ka.2.status
      duration_ms := ka.2.duration_ms
      created_at := some ka.2.created_at
      matchInfo :=
        { type := .keyword
          keyword := some ka.1.keyword
          timecode_ms := ka.1.start_ms
          score := rankOr05 ka.1.confidence }
      rank := rankOr05 ka.1.confidence })

/-- `SearchService._search_keywords`: the two sub-queries concatenated. -/
def searchKeywords (db : DB) (query : String) (tenant_id : UUID)
    (filters : SearchFilters) : List Candidate :=
  searchManualKeywords db query tenant_id filters ++
    searchAiKeywords db query tenant_id filters

/-- `SearchService._search_metadata`: full-text match on `assets` directly,
with `_add_filters` conditions, `ORDER BY rank DESC LIMIT 100`. -/
def searchMetadata (db : DB) (query : String) (tenant_id : UUID)
    (filters : SearchFilters) : List Candidate :=
  let rows := db.assets.filter (fun a =>
    a.tenant_id == tenant_id && db.tsMatchAsset a.id query &&
      filterPasses filters a)
  let sorted := rows.insertionSort
    (fun x y => db.tsRankAsset y.id query ≤ db.tsRankAsset x.id query)
  (sorted.take 100).map (fun a =>
    { asset_id := a.id
      title := some a.title
      description := a.description
      asset_type := some a.asset_type
      status := some a.status
      duration_ms := a.duration_ms
      created_at := some a.created_at
      matchInfo :=
        { type := .metadata
          text := some (db.tsHeadlineAsset a.id query)
          score := db.tsRankAsset a.id query }
      rank := db.tsRankAsset a.id query })

/-- SQL `LEFT JOIN persons p ON p.id = f.person_id`: the matching persons, or
a single null row when none match. -/
def leftJoinPersons (persons : List Person) (fc : FaceRow) : List (Option Person) :=
  let ms := persons.filter (fun p => some p.id == fc.person_id)
  if ms.isEmpty then [none] else ms.map some

/-- `SearchService._search_faces`: embed the query image (any failure of the
embedding service yields an empty candidate list), then nearest-neighbour
search on `asset_faces` joined to `assets` and left-joined to `persons`,
ordered by vector distance, `LIMIT 50`, keeping only similarity `≥ 0.5`.
Note: `_add_filters` is NOT applied in this adapter — its SQL constrains only
the tenant and non-null embeddings. -/
def searchFaces (db : DB) (face_image : String) (tenant_id : UUID)
    (_filters : SearchFilters) : List Candidate :=
  match db.embedImage face_image with
  | Except.error _ => []
  | Except.ok embedding =>
    let joined := joinAssets db.faces (·.asset_id) db.assets
    let rows := (joined.filter (fun fa =>
      fa.1.tenant_id == tenant_id && fa.1.face_embedding.isSome)).flatMap
        (fun fa => (leftJoinPersons db.persons fa.1).map (fun p => (fa.1, fa.2, p)))
    let sorted := rows.insertionSort (fun x y =>
      db.vecDist (x.1.face_embedding.getD []) embedding ≤
        db.vecDist (y.1.face_embedding.getD []) embedding)
    ((sorted.take 50).filter (fun r =>
      decide ((1 : ℚ) / 2 ≤ 1 - db.vecDist (r.1.face_embedding.getD []) embedding))).map
      (fun r =>
        { asset_id := r.1.asset_id
          title := some r.2.1.title
          asset_type := some r.2.1.asset_type
          status := some r.2.1.status
          duration_ms := r.2.1.duration_ms
          created_at := some r.2.1.created_at
          matchInfo :=
            { type := .face
              timecode_ms := r.1.timecode_ms
              person_name := r.2.2.map (·.name)
              score := 1 - db.vecDist (r.1.face_embedding.getD []) embedding }
          rank := 1 - db.vecDist (r.1.face_embedding.getD []) embedding })

/-! ### The result merger (`_merge_results`) -/

/-- `ranks[source_type] = rank` on the insertion-ordered `ranks` dict: replace
the value in place when the key exists, append otherwise. -/
def setRank (ranks : List (SourceType × ℚ)) (s : SourceType) (r : ℚ) :
    List (SourceType × ℚ) :=
  if ranks.any (fun p => p.1 == s) then
    ranks.map (fun p => if p.1 == s then (p.1, r) else p)
  else ranks ++ [(s, r)]

/-- The fresh aggregate record `_merge_results` creates for a not-yet-seen
asset id (before the unconditional match/rank appends). -/
def freshRecord (c : Candidate) : AssetRecord :=
  { asset_id := c.asset_id
    title := c.title
    description := c.description
    asset_type := c.asset_type
    status := c.status
    duration_ms := c.duration_ms
    created_at := c.created_at
    thumbnail_url := c.thumbnail_url
    matchList := []
    ranks := [] }

/-- The per-record effect of one `_merge_results` iteration: on the record of
the candidate's asset id, append the candidate's match and set its source
rank; leave every other record unchanged. -/
def applyCandidate (src : SourceType) (c : Candidate) (r : AssetRecord) :
    AssetRecord :=
  if r.asset_id == c.asset_id then
    { r with
      matchList := r.matchList ++ [c.matchInfo]
      ranks := setRank r.ranks src c.rank }
  else r

/-- One iteration of the `_merge_results` loop: ensure a record exists for the
candidate's asset id, then append the candidate's match and set its source
rank. -/
def mergeOne (state : List AssetRecord) (src : SourceType) (c : Candidate) :
    List AssetRecord :=
  let ensured :=
    if state.any (fun r => r.asset_id == c.asset_id) then state
    else state ++ [freshRecord c]
  ensured.map (applyCandidate src c)

/-- `SearchService._merge_results`: fold the new candidate list into the
insertion-ordered `results_by_asset` association list. -/
def mergeResults (state : List AssetRecord) (newResults : List Candidate)
    (src : SourceType) : List AssetRecord :=
  newResults.foldl (fun st c => mergeOne st src c) state

/-! ### The orchestrator (`SearchService.search`) -/

/-- Python truthiness of the optional `request.face_image` string. -/
def faceImageTruthy (img : Option String) : Bool :=
  match img with
  | none => false
  | some s => !s.isEmpty

/-- One `if request.modes.X:` block of `search`: when enabled, merge the
adapter's candidates and append the mode name if the adapter returned any. -/
def stepSource (acc : List AssetRecord × List String) (enabled : Bool)
    (results : List Candidate) (src : SourceType) (name : String) :
    List AssetRecord × List String :=
  if enabled then
    (mergeResults acc.1 results src,
      if results.isEmpty then acc.2 else acc.2 ++ [name])
  else acc

/-- The candidates the face source contributes to a given request: none when
face mode is disabled or no (truthy) face image is supplied, otherwise the
face adapter's output. -/
def faceResults (db : DB) (request : MultimodalSearchRequest)
    (tenant_id : UUID) : List Candidate :=
  if request.modes.face && faceImageTruthy request.face_image then
    searchFaces db (request.face_image.getD "") tenant_id request.filters
  else []

/-- The merge/mode-tracking phase of `SearchService.search`: the five guarded
source blocks in their source order, starting from the empty dict. -/
def gather (db : DB) (request : MultimodalSearchRequest) (tenant_id : UUID) :
    List AssetRecord × List String :=
  let s1 := stepSource ([], []) request.modes.transcription
    (searchTranscriptions db request.query tenant_id request.filters)
    .transcription "transcription"
  let s2 := stepSource s1 request.modes.scene
    (searchScenes db request.query tenant_id request.filters) .scene "scene"
  let s3 := stepSource s2 request.modes.keywords
    (searchKeywords db request.query tenant_id request.filters) .keyword "keyword"
  let s4 := stepSource s3 request.modes.metadata
    (searchMetadata db request.query tenant_id request.filters) .metadata "metadata"
  stepSource s4 (request.modes.face && faceImageTruthy request.face_image)
    (faceResults db request tenant_id) .face "face"

/-- The scoring and sorting phase of `search`: pair every aggregate record
with its RRF combined score and sort by combined score descending (Python's
`sorted(..., reverse=True)`, stable). -/
def rankRecords (state : List AssetRecord) : List (AssetRecord × ℚ) :=
  (state.map (fun r => (r, calculateRrfScore r.matchList))).insertionSort
    (fun x y => y.2 ≤ x.2)

/-- The formatting loop of `search`: one `MultimodalSearchResult` per scored
aggregate record. -/
def formatResult (p : AssetRecord × ℚ) : MultimodalSearchResult :=
  { asset_id := p.1.asset_id
    title := p.1.title
    description := p.1.description
    asset_type := p.1.asset_type
    status := p.1.status
    thumbnail_url := p.1.thumbnail_url
    duration_ms := p.1.duration_ms
    matchList := p.1.matchList
    combined_score := p.2
    created_at := p.1.created_at }

/-- `SearchService.search`: gather per-source candidates, merge, score with
RRF, sort, paginate with `sorted_results[offset : offset + limit]`, format,
and assemble the response envelope. -/
def search (db : DB) (request : MultimodalSearchRequest) (tenant_id : UUID) :
    MultimodalSearchResponse :=
  let g := gather db request tenant_id
  let sorted_results := rankRecords g.1
  let total := sorted_results.length
  let paginated := (sorted_results.drop request.offset).take request.limit
  { query := request.query
    total := total
    limit := request.limit
    offset := request.offset
    results := paginated.map formatResult
    modes_used := g.2 }

/-- The unpaginated-equivalent full ranked result list of a request (the
formatted version of the complete sorted candidate list, before the
`[offset : offset + limit]` slice). -/
def fullRankedResults (db : DB) (request : MultimodalSearchRequest)
    (tenant_id : UUID) : List MultimodalSearchResult :=
  (rankRecords (gather db request tenant_id).1).map formatResult

/-! ## Verification

### The RRF closed form (claims C1, C5) -/

/-- The spec's fused score for an entity with `n` accumulated matches:
`(Σ_{rank=1}^{n} 1/(60 + rank)) * (1 + (n-1) * 0.2)`. -/
def rrfFormula (n : Nat) : ℚ :=
  (∑ r ∈ Finset.range n, 1 / (60 + ((r : ℚ) + 1))) *
    (1 + ((n : ℚ) - 1) * (2 / 10))

theorem rrfLoop_eq_sum (k : ℚ) (l : List MatchInfo) : ∀ i : Nat,
    rrfLoop k i l = ∑ r ∈ Finset.range l.length, 1 / (k + ((i : ℚ) + r)) := by
  induction l with
  | nil => intro i; simp [rrfLoop]
  | cons x xs ih =>
    intro i
    rw [List.length_cons, Finset.sum_range_succ', rrfLoop, ih (i + 1), add_comm]
    congr 1
    · apply Finset.sum_congr rfl
      intro r _
      push_cast
      ring_nf
    · push_cast
      ring_nf

theorem calculateRrfScore_eq_formula (ml : List MatchInfo) (h : ml ≠ []) :
    calculateRrfScore ml = rrfFormula ml.length := by
  have hne : ml.isEmpty = false := by
    cases ml with
    | nil => exact absurd rfl h
    | cons a l => rfl
  rw [calculateRrfScore, hne]
  simp only [Bool.false_eq_true, if_false, rrfFormula]
  rw [rrfLoop_eq_sum, List.length_insertionSort]
  congr 1
  apply Finset.sum_congr rfl
  intro r _
  rw [rrf_k]
  push_cast
  ring_nf

theorem calculateRrfScore_congr_length (ml ml' : List MatchInfo)
    (h : ml.length = ml'.length) :
    calculateRrfScore ml = calculateRrfScore ml' := by
  rcases ml with _ | ⟨a, l⟩
  · rcases ml' with _ | ⟨b, l'⟩
    · rfl
    · simp at h
  · rcases ml' with _ | ⟨b, l'⟩
    · simp at h
    · rw [calculateRrfScore_eq_formula _ (by simp),
        calculateRrfScore_eq_formula _ (by simp), h]

/-- C1: for every entity with `N ≥ 1` accumulated matches, the combined score
computed by `_calculate_rrf_score` equals
`(Σ_{rank=1}^{N} 1/(60 + rank)) * (1 + (N-1) * 0.2)`; in particular the score
depends only on the number of matches `N`. -/
theorem rrf_combined_score_closed_form (ml : List MatchInfo) (h : ml ≠ []) :
    calculateRrfScore ml = rrfFormula ml.length ∧
      ∀ ml' : List MatchInfo, ml'.length = ml.length →
        calculateRrfScore ml' = calculateRrfScore ml := by
  exact ⟨calculateRrfScore_eq_formula ml h,
    fun ml' h' => calculateRrfScore_congr_length ml' ml h'⟩

/-- A sample match used to instantiate hypotheses of the claim theorems. -/
def sampleMatch : MatchInfo :=
  { type := .keyword, keyword := some "sunset", score := 1 }

/-- A second sample match with the same score. -/
def sampleMatch2 : MatchInfo :=
  { type := .metadata, text := some "sunset", score := 1 }

theorem rrf_combined_score_closed_form_witness :
    calculateRrfScore [sampleMatch, sampleMatch2] = rrfFormula 2 ∧
      ∀ ml' : List MatchInfo, ml'.length = [sampleMatch, sampleMatch2].length →
        calculateRrfScore ml' = calculateRrfScore [sampleMatch, sampleMatch2] :=
  rrf_combined_score_closed_form [sampleMatch, sampleMatch2] (by decide)

theorem rrfFormula_pos_parts (n : Nat) (hn : 1 ≤ n) :
    0 < ∑ r ∈ Finset.range n, 1 / (60 + ((r : ℚ) + 1)) ∧
      0 < 1 + ((n : ℚ) - 1) * (2 / 10) := by
  constructor
  · apply Finset.sum_pos
    · intro r _
      positivity
    · exact ⟨0, Finset.mem_range.mpr hn⟩
  · have : (1 : ℚ) ≤ (n : ℚ) := by exact_mod_cast hn
    nlinarith

theorem rrfFormula_strictMono (m n : Nat) (hm : 1 ≤ m) (h : m < n) :
    rrfFormula m < rrfFormula n := by
  have hsum : (∑ r ∈ Finset.range m, 1 / (60 + ((r : ℚ) + 1))) <
      ∑ r ∈ Finset.range n, 1 / (60 + ((r : ℚ) + 1)) := by
    apply Finset.sum_lt_sum_of_subset
      (Finset.range_subset.mpr h.le)
      (i := m) (Finset.mem_range.mpr h) (by simp)
    · positivity
    · intro j _ _
      positivity
  have hboost : (1 + ((m : ℚ) - 1) * (2 / 10)) <
      1 + ((n : ℚ) - 1) * (2 / 10) := by
    have : (m : ℚ) < (n : ℚ) := by exact_mod_cast h
    nlinarith
  have hp := rrfFormula_pos_parts m hm
  exact mul_lt_mul'' hsum hboost hp.1.le hp.2.le

/-- C5: among entities whose matches all carry one identical per-match score,
strictly more accumulated matches give a strictly higher combined score. -/
theorem more_matches_strictly_higher_score (m₁ m₂ : List MatchInfo) (s : ℚ)
    (hs₁ : ∀ x ∈ m₁, x.score = s) (hs₂ : ∀ x ∈ m₂, x.score = s)
    (h₁ : 1 ≤ m₁.length) (hlt : m₁.length < m₂.length) :
    calculateRrfScore m₁ < calculateRrfScore m₂ := by
  have hne₁ : m₁ ≠ [] := by
    intro he; rw [he] at h₁; simp at h₁
  have hne₂ : m₂ ≠ [] := by
    intro he; rw [he] at hlt; simp at hlt
  rw [calculateRrfScore_eq_formula m₁ hne₁, calculateRrfScore_eq_formula m₂ hne₂]
  exact rrfFormula_strictMono m₁.length m₂.length h₁ hlt

theorem more_matches_strictly_higher_score_witness :
    calculateRrfScore [sampleMatch] <
      calculateRrfScore [sampleMatch, { sampleMatch2 with score := 1 }] :=
  more_matches_strictly_higher_score _ _ 1 (by decide) (by decide)
    (by decide) (by decide)

/-! ### Suggestions (claims C9, C10) -/

/-- C10: the suggestion operation caps each of its two source queries at
`limit / 2` rows, so it returns at most `2 * (limit / 2)` suggestions, and for
`limit = 1` it always returns the empty list (both SQL `LIMIT`s are `0`). -/
theorem suggestions_per_source_cap (db : DB) (query : String)
    (tenant_id : UUID) (limit : Nat) :
    (getSuggestions db query tenant_id limit).length ≤ 2 * (limit / 2) ∧
      getSuggestions db query tenant_id 1 = [] := by
  constructor
  · have hk : (keywordSuggestionsOf db query tenant_id limit).length ≤ limit / 2 := by
      simp only [keywordSuggestionsOf, suggestKeywords, List.length_map,
        List.length_take]
      omega
    have hp : (personSuggestionsOf db query tenant_id limit).length ≤ limit / 2 := by
      simp only [personSuggestionsOf, suggestPersons, List.length_map,
        List.length_take]
      omega
    have h1 : (getSuggestions db query tenant_id limit).length ≤
        (keywordSuggestionsOf db query tenant_id limit).length +
          (personSuggestionsOf db query tenant_id limit).length := by
      simp only [getSuggestions, List.length_take, List.length_append]
      omega
    omega
  · have h2 : (1 : ℕ) / 2 = 0 := rfl
    simp [getSuggestions, keywordSuggestionsOf, personSuggestionsOf,
      suggestKeywords, suggestPersons, h2]

/-- The "count descending" ordering on suggestions the spec asserts for the
returned list. -/
def suggCountGe (x y : SearchSuggestion) : Prop := y.count ≤ x.count

instance : DecidableRel suggCountGe := fun x y =>
  inferInstanceAs (Decidable (y.count ≤ x.count))

/-- A store on which the suggestion list is not globally sorted by count: one
matching keyword occurring once, one matching person with five appearances. -/
def dbSuggest : DB :=
  { asset_keywords :=
      [{ asset_id := 1, tenant_id := 0, keyword := "amanhecer",
         keyword_normalized := "amanhecer" }]
    persons :=
      [{ id := 2, tenant_id := 0, name := "Bianca", appearance_count := 5 }]
    ilike := fun _ _ => true }

/-- C9 counterexample: the suggestion operation returns the keyword segment
(count 1) before the person segment (count 5); the returned list is not
sorted by occurrence count descending. -/
theorem suggestions_not_globally_sorted :
    getSuggestions dbSuggest "a" 0 10 =
      [{ text := "amanhecer", type := "keyword", count := 1 },
       { text := "Bianca", type := "person", count := 5 }] ∧
      ¬ List.Sorted suggCountGe (getSuggestions dbSuggest "a" 0 10) := by
  constructor
  · decide
  · decide

/-- C9 as amended: at most `limit` suggestions, drawn from keyword frequency
counts and known-person names; each of the two segments is sorted by count
descending, but the concatenation (keywords first, then persons) is not
re-sorted globally. -/
theorem suggestions_segmentwise_sorted (db : DB) (query : String)
    (tenant_id : UUID) (limit : Nat) :
    (getSuggestions db query tenant_id limit).length ≤ limit ∧
      getSuggestions db query tenant_id limit =
        (keywordSuggestionsOf db query tenant_id limit ++
          personSuggestionsOf db query tenant_id limit).take limit ∧
      List.Sorted suggCountGe (keywordSuggestionsOf db query tenant_id limit) ∧
      List.Sorted suggCountGe (personSuggestionsOf db query tenant_id limit) ∧
      (∀ s ∈ keywordSuggestionsOf db query tenant_id limit,
        s.type = "keyword") ∧
      (∀ s ∈ personSuggestionsOf db query tenant_id limit, s.type = "person") := by
  refine ⟨?_, rfl, ?_, ?_, ?_, ?_⟩
  · simp only [getSuggestions, List.length_take]
    omega
  · rw [keywordSuggestionsOf]
    exact List.Pairwise.map _ (fun a b h => h)
      ((List.sorted_insertionSort countGe _).sublist (List.take_sublist _ _))
  · rw [personSuggestionsOf]
    exact List.Pairwise.map _ (fun a b h => h)
      ((List.sorted_insertionSort countGe _).sublist (List.take_sublist _ _))
  · intro s hs
    simp only [keywordSuggestionsOf, List.mem_map] at hs
    obtain ⟨r, _, rfl⟩ := hs
    rfl
  · intro s hs
    simp only [personSuggestionsOf, List.mem_map] at hs
    obtain ⟨r, _, rfl⟩ := hs
    rfl

/-! ### Orchestrator plumbing (claims C2, C4, C6, C7) -/

theorem stepSource_snd (acc : List AssetRecord × List String) (e : Bool)
    (res : List Candidate) (src : SourceType) (name : String) :
    (stepSource acc e res src name).2 =
      acc.2 ++ (if e && !res.isEmpty then [name] else []) := by
  cases e <;> cases hre : res.isEmpty <;> simp [stepSource, hre]

theorem stepSource_fst (acc : List AssetRecord × List String) (e : Bool)
    (res : List Candidate) (src : SourceType) (name : String) :
    (stepSource acc e res src name).1 =
      if e then mergeResults acc.1 res src else acc.1 := by
  cases e <;> simp [stepSource]

theorem mem_cond_singleton (x n : String) (c : Bool) :
    x ∈ (if c then [n] else []) ↔ c = true ∧ x = n := by
  cases c <;> simp

/-- The `modes_used` list produced by `search`, as the concatenation of one
conditional singleton per source block. -/
theorem gather_snd (db : DB) (req : MultimodalSearchRequest) (tenant_id : UUID) :
    (gather db req tenant_id).2 =
      (if req.modes.transcription &&
          !(searchTranscriptions db req.query tenant_id req.filters).isEmpty then
        ["transcription"] else []) ++
      (if req.modes.scene &&
          !(searchScenes db req.query tenant_id req.filters).isEmpty then
        ["scene"] else []) ++
      (if req.modes.keywords &&
          !(searchKeywords db req.query tenant_id req.filters).isEmpty then
        ["keyword"] else []) ++
      (if req.modes.metadata &&
          !(searchMetadata db req.query tenant_id req.filters).isEmpty then
        ["metadata"] else []) ++
      (if (req.modes.face && faceImageTruthy req.face_image) &&
          !(faceResults db req tenant_id).isEmpty then
        ["face"] else []) := by
  simp only [gather, stepSource_snd, List.nil_append, List.append_assoc]

theorem search_modes_used (db : DB) (req : MultimodalSearchRequest)
    (tenant_id : UUID) :
    (search db req tenant_id).modes_used = (gather db req tenant_id).2 := rfl

theorem search_results_slice (db : DB) (req : MultimodalSearchRequest)
    (tenant_id : UUID) :
    (search db req tenant_id).results =
      ((fullRankedResults db req tenant_id).drop req.offset).take req.limit := by
  simp only [search, fullRankedResults]
  rw [← List.map_drop, ← List.map_take]

/-- C7: a mode name appears in `modes_used` iff the mode was enabled and its
adapter contributed at least one candidate (for the face source, "contributed"
also requires a truthy face image and a successful embedding — `faceResults`
is empty whenever face search is disabled, skipped or failed). -/
theorem modes_used_iff_nonempty (db : DB) (req : MultimodalSearchRequest)
    (tenant_id : UUID) :
    ("transcription" ∈ (search db req tenant_id).modes_used ↔
      req.modes.transcription = true ∧
        searchTranscriptions db req.query tenant_id req.filters ≠ []) ∧
    ("scene" ∈ (search db req tenant_id).modes_used ↔
      req.modes.scene = true ∧
        searchScenes db req.query tenant_id req.filters ≠ []) ∧
    ("keyword" ∈ (search db req tenant_id).modes_used ↔
      req.modes.keywords = true ∧
        searchKeywords db req.query tenant_id req.filters ≠ []) ∧
    ("metadata" ∈ (search db req tenant_id).modes_used ↔
      req.modes.metadata = true ∧
        searchMetadata db req.query tenant_id req.filters ≠ []) ∧
    ("face" ∈ (search db req tenant_id).modes_used ↔
      req.modes.face = true ∧ faceResults db req tenant_id ≠ []) := by
  rw [search_modes_used, gather_snd]
  simp only [List.mem_append, mem_cond_singleton]
  simp only [String.reduceEq, and_false, or_false, false_or, and_true,
    Bool.and_eq_true, Bool.not_eq_true', List.isEmpty_eq_false]
  refine ⟨trivial, trivial, trivial, trivial, ?_⟩
  rcases hf : req.modes.face with _ | _
  · simp [faceResults, hf]
  · rcases ht : faceImageTruthy req.face_image with _ | _
    · simp [faceResults, hf, ht]
    · simp [faceResults, hf, ht]

/-- C6: the paginated results are exactly the `[offset, offset + limit)` slice
of the full ranked list, `total` is that full list's length, and two
consecutive limit-5 pages concatenate to the single limit-10 page. -/
theorem pagination_slice_consistency (db : DB) (req : MultimodalSearchRequest)
    (tenant_id : UUID) :
    (search db req tenant_id).results =
      ((fullRankedResults db req tenant_id).drop req.offset).take req.limit ∧
    (search db req tenant_id).total = (fullRankedResults db req tenant_id).length ∧
    (search db { req with limit := 5, offset := 0 } tenant_id).results ++
        (search db { req with limit := 5, offset := 5 } tenant_id).results =
      (search db { req with limit := 10, offset := 0 } tenant_id).results := by
  refine ⟨search_results_slice db req tenant_id, ?_, ?_⟩
  · simp only [search, fullRankedResults, List.length_map]
  · rw [search_results_slice, search_results_slice, search_results_slice]
    have h5 : fullRankedResults db { req with limit := 5, offset := 0 } tenant_id =
        fullRankedResults db req tenant_id := rfl
    have h5' : fullRankedResults db { req with limit := 5, offset := 5 } tenant_id =
        fullRankedResults db req tenant_id := rfl
    have h10 : fullRankedResults db { req with limit := 10, offset := 0 } tenant_id =
        fullRankedResults db req tenant_id := rfl
    rw [h5, h5', h10]
    simp only [List.drop_zero]
    rw [show (10 : ℕ) = 5 + 5 from rfl, List.take_add]

/-- C4: when face mode is enabled but no (truthy) face image is supplied, or
the embedding dependency fails, the face source contributes zero candidates,
the search returns exactly the response it would return with face mode
disabled, and `"face"` is absent from `modes_used`. -/
theorem face_failure_graceful_degradation (db : DB)
    (req : MultimodalSearchRequest) (tenant_id : UUID)
    (henabled : req.modes.face = true)
    (h : faceImageTruthy req.face_image = false ∨
      ∃ e, db.embedImage (req.face_image.getD "") = Except.error e) :
    faceResults db req tenant_id = [] ∧
    search db req tenant_id =
      search db { req with modes := { req.modes with face := false } } tenant_id ∧
    "face" ∉ (search db req tenant_id).modes_used := by
  have hfr : faceResults db req tenant_id = [] := by
    rcases h with ht | ⟨e, he⟩
    · simp [faceResults, ht]
    · rw [faceResults]
      split
      · rw [searchFaces, he]
      · rfl
  have hgather : gather db req tenant_id =
      gather db { req with modes := { req.modes with face := false } } tenant_id := by
    simp only [gather]
    rw [hfr]
    cases req.modes.face && faceImageTruthy req.face_image <;>
      simp [stepSource, mergeResults, faceResults]
  refine ⟨hfr, ?_, ?_⟩
  · simp only [search]
    rw [hgather]
  · rw [search_modes_used, gather_snd]
    simp only [List.mem_append, mem_cond_singleton, String.reduceEq, and_false,
      or_false, false_or, or_self, hfr]
    simp

/-- An empty store (every oracle at its default; the embedding service always
fails). -/
def dbEmpty : DB := {}

/-- A request with all modes at their defaults (face enabled) and no face
image supplied. -/
def reqFaceNone : MultimodalSearchRequest := { query := "q" }

theorem face_failure_graceful_degradation_witness :
    faceResults dbEmpty reqFaceNone 0 = [] ∧
    search dbEmpty reqFaceNone 0 =
      search dbEmpty
        { reqFaceNone with modes := { reqFaceNone.modes with face := false } } 0 ∧
    "face" ∉ (search dbEmpty reqFaceNone 0).modes_used :=
  face_failure_graceful_degradation dbEmpty reqFaceNone 0 rfl (Or.inl rfl)

/-! ### Entity deduplication (claim C2) -/

/-- The merger invariant: distinct asset ids, and every aggregate record holds
at least one match. -/
def stateInv (st : List AssetRecord) : Prop :=
  (st.map (·.asset_id)).Nodup ∧ ∀ r ∈ st, r.matchList ≠ []

theorem mergeOne_ids (st : List AssetRecord) (src : SourceType) (c : Candidate) :
    (mergeOne st src c).map (·.asset_id) =
      (if st.any (fun r => r.asset_id == c.asset_id) then st
       else st ++ [freshRecord c]).map (·.asset_id) := by
  simp only [mergeOne, List.map_map]
  apply List.map_congr_left
  intro r _
  simp only [Function.comp_apply, applyCandidate]
  split <;> rfl

theorem mergeOne_inv (st : List AssetRecord) (src : SourceType) (c : Candidate)
    (h : stateInv st) : stateInv (mergeOne st src c) := by
  obtain ⟨hnd, hm⟩ := h
  constructor
  · rw [mergeOne_ids]
    split
    · exact hnd
    · rename_i hany
      simp only [List.map_append, List.map_cons, List.map_nil]
      rw [List.nodup_append]
      refine ⟨hnd, List.nodup_singleton _, ?_⟩
      intro a ha hb
      simp only [List.mem_singleton] at hb
      obtain ⟨r, hrmem, hrid⟩ := List.mem_map.mp ha
      exact hany (List.any_eq_true.mpr
        ⟨r, hrmem, beq_iff_eq.mpr (by rw [hrid, hb]; rfl)⟩)
  · intro r hr
    simp only [mergeOne, List.mem_map] at hr
    obtain ⟨r₀, hr₀, rfl⟩ := hr
    rw [applyCandidate]
    by_cases hid : (r₀.asset_id == c.asset_id) = true
    · rw [if_pos hid]
      simp
    · rw [if_neg hid]
      split at hr₀
      · exact hm r₀ hr₀
      · rcases List.mem_append.mp hr₀ with hin | hfresh
        · exact hm r₀ hin
        · simp only [List.mem_singleton] at hfresh
          subst hfresh
          exact absurd (beq_iff_eq.mpr rfl) hid

theorem mergeResults_inv (st : List AssetRecord) (l : List Candidate)
    (src : SourceType) (h : stateInv st) : stateInv (mergeResults st l src) := by
  induction l generalizing st with
  | nil => exact h
  | cons c cs ih => exact ih (mergeOne st src c) (mergeOne_inv st src c h)

theorem stepSource_inv (acc : List AssetRecord × List String) (e : Bool)
    (res : List Candidate) (src : SourceType) (name : String)
    (h : stateInv acc.1) : stateInv (stepSource acc e res src name).1 := by
  rw [stepSource_fst]
  split
  · exact mergeResults_inv _ _ _ h
  · exact h

theorem gather_inv (db : DB) (req : MultimodalSearchRequest)
    (tenant_id : UUID) : stateInv (gather db req tenant_id).1 := by
  have h0 : stateInv ([] : List AssetRecord) := ⟨List.nodup_nil, by simp⟩
  simp only [gather]
  exact stepSource_inv _ _ _ _ _ (stepSource_inv _ _ _ _ _
    (stepSource_inv _ _ _ _ _ (stepSource_inv _ _ _ _ _
      (stepSource_inv _ _ _ _ _ h0))))

/-- C2: in every search response, each asset id appears at most once in the
results, and every returned result carries at least one match. -/
theorem search_results_entity_dedup (db : DB) (req : MultimodalSearchRequest)
    (tenant_id : UUID) :
    ((search db req tenant_id).results.map (·.asset_id)).Nodup ∧
      ∀ r ∈ (search db req tenant_id).results, r.matchList ≠ [] := by
  obtain ⟨hnd, hm⟩ := gather_inv db req tenant_id
  constructor
  · simp only [search]
    rw [List.map_map]
    have hcomp : ((fun r : MultimodalSearchResult => r.asset_id) ∘ formatResult) =
        fun p : AssetRecord × ℚ => p.1.asset_id := rfl
    rw [hcomp]
    apply List.Sublist.nodup
      (((List.take_sublist _ _).trans (List.drop_sublist _ _)).map
        (fun p : AssetRecord × ℚ => p.1.asset_id))
    have hperm := (List.perm_insertionSort
      (fun x y : AssetRecord × ℚ => y.2 ≤ x.2)
      ((gather db req tenant_id).1.map
        (fun r => (r, calculateRrfScore r.matchList)))).map
      (fun p : AssetRecord × ℚ => p.1.asset_id)
    apply hperm.nodup_iff.mpr
    rw [List.map_map]
    exact hnd
  · intro r hr
    simp only [search, List.mem_map] at hr
    obtain ⟨p, hp, rfl⟩ := hr
    have hp' : p ∈ rankRecords (gather db req tenant_id).1 :=
      ((List.take_sublist _ _).trans (List.drop_sublist _ _)).mem hp
    have hp2 := (List.perm_insertionSort
      (fun x y : AssetRecord × ℚ => y.2 ≤ x.2) _).mem_iff.mp hp'
    obtain ⟨r₀, hr₀, rfl⟩ := List.mem_map.mp hp2
    exact hm r₀ hr₀

/-! ### Filter push-down (claim C3) -/

/-- The spec's per-result filter predicate (P5): every enabled filter
dimension evaluates true on the returned result's entity fields. -/
def candidateFilterOk (f : SearchFilters) (c : Candidate) : Bool :=
  (!strTruthy f.asset_type || c.asset_type == some (f.asset_type.getD "")) &&
  (!strTruthy f.status || c.status == some (f.status.getD "")) &&
  (!f.date_from.isSome ||
    (match c.created_at with
     | some d => decide (f.date_from.getD 0 ≤ d)
     | none => false)) &&
  (!f.date_to.isSome ||
    (match c.created_at with
     | some d => decide (d ≤ f.date_to.getD 0)
     | none => false)) &&
  (!intTruthy f.min_duration_ms ||
    (match c.duration_ms with
     | some d => decide (f.min_duration_ms.getD 0 ≤ d)
     | none => false)) &&
  (!intTruthy f.max_duration_ms ||
    (match c.duration_ms with
     | some d => decide (d ≤ f.max_duration_ms.getD 0)
     | none => false))

theorem candidateFilterOk_of_filterPasses (f : SearchFilters) (a : Asset)
    (c : Candidate) (h1 : c.asset_type = some a.asset_type)
    (h2 : c.status = some a.status) (h3 : c.created_at = some a.created_at)
    (h4 : c.duration_ms = a.duration_ms)
    (hp : filterPasses f a = true) : candidateFilterOk f c = true := by
  rw [candidateFilterOk, h1, h2, h3, h4]
  rw [filterPasses] at hp
  simp only [Bool.and_eq_true, Bool.or_eq_true] at hp ⊢
  obtain ⟨⟨⟨⟨⟨p1, p2⟩, p3⟩, p4⟩, p5⟩, p6⟩ := hp
  refine ⟨⟨⟨⟨⟨?_, ?_⟩, p3⟩, p4⟩, p5⟩, p6⟩
  · rcases p1 with p | p
    · exact Or.inl p
    · right
      rw [beq_iff_eq] at p
      rw [beq_iff_eq, p]
  · rcases p2 with p | p
    · exact Or.inl p
    · right
      rw [beq_iff_eq] at p
      rw [beq_iff_eq, p]

theorem searchTranscriptions_filterOk (db : DB) (q : String) (t : UUID)
    (f : SearchFilters) :
    ∀ c ∈ searchTranscriptions db q t f, candidateFilterOk f c = true := by
  intro c hc
  simp only [searchTranscriptions, List.mem_map] at hc
  obtain ⟨ta, hta, rfl⟩ := hc
  have h1 := (List.perm_insertionSort _ _).mem_iff.mp
    ((List.take_sublist 100 _).mem hta)
  have h3 := (List.mem_filter.mp h1).2
  simp only [Bool.and_eq_true] at h3
  exact candidateFilterOk_of_filterPasses f ta.2 _ rfl rfl rfl rfl h3.2

theorem searchScenes_filterOk (db : DB) (q : String) (t : UUID)
    (f : SearchFilters) :
    ∀ c ∈ searchScenes db q t f, candidateFilterOk f c = true := by
  intro c hc
  simp only [searchScenes, List.mem_map] at hc
  obtain ⟨sa, hsa, rfl⟩ := hc
  have h1 := (List.perm_insertionSort _ _).mem_iff.mp
    ((List.take_sublist 100 _).mem hsa)
  have h3 := (List.mem_filter.mp h1).2
  simp only [Bool.and_eq_true] at h3
  exact candidateFilterOk_of_filterPasses f sa.2 _ rfl rfl rfl rfl h3.2

theorem searchManualKeywords_filterOk (db : DB) (q : String) (t : UUID)
    (f : SearchFilters) :
    ∀ c ∈ searchManualKeywords db q t f, candidateFilterOk f c = true := by
  intro c hc
  simp only [searchManualKeywords, List.mem_map] at hc
  obtain ⟨ka, hka, rfl⟩ := hc
  have h1 := (List.take_sublist 50 _).mem hka
  have h3 := (List.mem_filter.mp h1).2
  simp only [Bool.and_eq_true] at h3
  exact candidateFilterOk_of_filterPasses f ka.2 _ rfl rfl rfl rfl h3.2

theorem searchAiKeywords_filterOk (db : DB) (q : String) (t : UUID)
    (f : SearchFilters) :
    ∀ c ∈ searchAiKeywords db q t f, candidateFilterOk f c = true := by
  intro c hc
  simp only [searchAiKeywords, List.mem_map] at hc
  obtain ⟨ka, hka, rfl⟩ := hc
  have h1 := (List.take_sublist 50 _).mem hka
  have h3 := (List.mem_filter.mp h1).2
  simp only [Bool.and_eq_true] at h3
  exact candidateFilterOk_of_filterPasses f ka.2 _ rfl rfl rfl rfl h3.2

theorem searchMetadata_filterOk (db : DB) (q : String) (t : UUID)
    (f : SearchFilters) :
    ∀ c ∈ searchMetadata db q t f, candidateFilterOk f c = true := by
  intro c hc
  simp only [searchMetadata, List.mem_map] at hc
  obtain ⟨a, ha, rfl⟩ := hc
  have h1 := (List.perm_insertionSort _ _).mem_iff.mp
    ((List.take_sublist 100 _).mem ha)
  have h3 := (List.mem_filter.mp h1).2
  simp only [Bool.and_eq_true] at h3
  exact candidateFilterOk_of_filterPasses f a _ rfl rfl rfl rfl h3.2

/-- C3 as amended: the transcription, scene, keyword and metadata adapters
push the full conjunctive filter set into their queries, so all of their
results satisfy every enabled filter predicate; the face adapter does not
(see the counterexample). -/
theorem nonface_adapters_push_filters (db : DB) (q : String) (t : UUID)
    (f : SearchFilters) :
    (∀ c ∈ searchTranscriptions db q t f, candidateFilterOk f c = true) ∧
    (∀ c ∈ searchScenes db q t f, candidateFilterOk f c = true) ∧
    (∀ c ∈ searchKeywords db q t f, candidateFilterOk f c = true) ∧
    (∀ c ∈ searchMetadata db q t f, candidateFilterOk f c = true) := by
  refine ⟨searchTranscriptions_filterOk db q t f, searchScenes_filterOk db q t f,
    ?_, searchMetadata_filterOk db q t f⟩
  intro c hc
  rcases List.mem_append.mp hc with h | h
  · exact searchManualKeywords_filterOk db q t f c h
  · exact searchAiKeywords_filterOk db q t f c h

/-- A store with one video asset matched by a transcription row. -/
def dbFilters : DB :=
  { assets := [{ id := 1, tenant_id := 0, title := "t", asset_type := "video",
                 status := "available", duration_ms := some 100,
                 created_at := 50 }]
    transcriptions := [{ id := 10, asset_id := 1, tenant_id := 0 }]
    tsMatchTrans := fun _ _ => true
    tsRankTrans := fun _ _ => 1 }

/-- A fully populated filter set satisfied by the asset of `dbFilters`. -/
def filtersVideo : SearchFilters :=
  { asset_type := some "video", status := some "available",
    date_from := some 0, date_to := some 100,
    min_duration_ms := some 10, max_duration_ms := some 1000 }

/-- The candidate `dbFilters`'s transcription adapter returns. -/
def transCandidateW : Candidate :=
  { asset_id := 1, title := some "t", asset_type := some "video",
    status := some "available", duration_ms := some 100, created_at := some 50
    matchInfo := { type := .transcription, text := some "", score := 1 }
    rank := 1 }

theorem nonface_adapters_push_filters_witness :
    candidateFilterOk filtersVideo transCandidateW = true :=
  (nonface_adapters_push_filters dbFilters "q" 0 filtersVideo).1
    transCandidateW (by decide)

/-- A store with one image asset carrying a face, and a perfectly matching
query embedding. -/
def dbFace : DB :=
  { assets := [{ id := 1, tenant_id := 0, title := "t", asset_type := "image",
                 status := "available", created_at := 0 }]
    faces := [{ asset_id := 1, tenant_id := 0, face_embedding := some [] }]
    embedImage := fun _ => Except.ok []
    vecDist := fun _ _ => 0 }

/-- The candidate the face adapter returns on `dbFace`. -/
def faceCandidateW : Candidate :=
  { asset_id := 1, title := some "t", asset_type := some "image",
    status := some "available", created_at := some 0
    matchInfo := { type := .face, score := 1 }
    rank := 1 }

/-- C3 counterexample: `_search_faces` never calls `_add_filters`, so with an
asset-type filter `"video"` it still returns a result whose asset type is
`"image"` — an enabled filter predicate that evaluates false. -/
theorem face_adapter_ignores_filters :
    searchFaces dbFace "img" 0 filtersVideo = [faceCandidateW] ∧
      candidateFilterOk filtersVideo faceCandidateW = false := by
  constructor
  · have h0 : ((1 : ℚ) - 0) = 1 := by norm_num
    simp only [searchFaces, dbFace, joinAssets, leftJoinPersons,
      List.flatMap_cons, List.flatMap_nil, List.filter, List.map,
      List.append_nil, List.insertionSort, List.orderedInsert, List.take,
      faceCandidateW]
    norm_num
  · decide

/-! ### Merger commutativity (claim C8) -/

/-- Iterated `_merge_results`: fold a list of (source, candidate-list) batches
into the empty `results_by_asset` dict, in the given order. -/
def mergeBatches (batches : List (SourceType × List Candidate)) :
    List AssetRecord :=
  batches.foldl (fun st b => mergeResults st b.2 b.1) []

/-- Lookup of an aggregate record by asset id (the dict access
`results_by_asset[asset_id]`). -/
def findRecord (st : List AssetRecord) (aid : UUID) : Option AssetRecord :=
  st.find? (fun r => r.asset_id == aid)

/-- Whether an entity has an aggregate record. -/
def recordMem (st : List AssetRecord) (aid : UUID) : Bool :=
  (findRecord st aid).isSome

/-- The accumulated match list of an entity (empty when absent). -/
def matchesOf (st : List AssetRecord) (aid : UUID) : List MatchInfo :=
  ((findRecord st aid).map (·.matchList)).getD []

/-- The entity's stored rank for one source (`ranks[source]`). -/
def rankOf (st : List AssetRecord) (aid : UUID) (s : SourceType) : Option ℚ :=
  ((findRecord st aid).bind (fun r => r.ranks.find? (fun p => p.1 == s))).map
    (·.2)

theorem find?_map_pred {α : Type} (f : α → α) (p : α → Bool) (l : List α)
    (hf : ∀ r, p (f r) = p r) : (l.map f).find? p = (l.find? p).map f := by
  induction l with
  | nil => rfl
  | cons x xs ih =>
    simp only [List.map_cons, List.find?_cons]
    rw [hf x]
    cases hpx : p x <;> simp [ih]

theorem applyCandidate_asset_id (src : SourceType) (c : Candidate)
    (r : AssetRecord) : (applyCandidate src c r).asset_id = r.asset_id := by
  rw [applyCandidate]
  split <;> rfl

theorem findRecord_mergeOne (st : List AssetRecord) (src : SourceType)
    (c : Candidate) (aid : UUID) :
    findRecord (mergeOne st src c) aid =
      ((if st.any (fun r => r.asset_id == c.asset_id) then st
        else st ++ [freshRecord c]).find? (fun r => r.asset_id == aid)).map
        (applyCandidate src c) := by
  simp only [mergeOne, findRecord]
  exact find?_map_pred _ _ _ (fun r => by rw [applyCandidate_asset_id])

theorem matchesOf_mergeOne (st : List AssetRecord) (src : SourceType)
    (c : Candidate) (aid : UUID) :
    matchesOf (mergeOne st src c) aid =
      matchesOf st aid ++ (if c.asset_id == aid then [c.matchInfo] else []) := by
  rw [matchesOf, findRecord_mergeOne]
  by_cases hid : (c.asset_id == aid) = true
  · rw [if_pos hid]
    have hid' : c.asset_id = aid := beq_iff_eq.mp hid
    by_cases hany : st.any (fun r => r.asset_id == c.asset_id) = true
    · rw [if_pos hany]
      have hs : (st.find? (fun r => r.asset_id == aid)).isSome = true := by
        rw [List.find?_isSome]
        obtain ⟨r, hr, hpr⟩ := List.any_eq_true.mp hany
        refine ⟨r, hr, ?_⟩
        rw [beq_iff_eq] at hpr ⊢
        rw [hpr, hid']
      obtain ⟨r₀, hr₀⟩ := Option.isSome_iff_exists.mp hs
      rw [hr₀]
      have hpr₀ : (r₀.asset_id == aid) = true :=
        List.find?_some (p := fun r : AssetRecord => r.asset_id == aid) hr₀
      have happ : applyCandidate src c r₀ =
          { r₀ with matchList := r₀.matchList ++ [c.matchInfo],
                    ranks := setRank r₀.ranks src c.rank } := by
        rw [applyCandidate, if_pos]
        rw [beq_iff_eq] at hpr₀ ⊢
        rw [hpr₀, hid']
      simp only [Option.map_some', happ]
      simp [matchesOf, findRecord, hr₀]
    · rw [if_neg hany]
      have hnone : st.find? (fun r => r.asset_id == aid) = none := by
        rw [List.find?_eq_none]
        intro x hx hpx
        apply hany
        refine List.any_eq_true.mpr ⟨x, hx, ?_⟩
        rw [beq_iff_eq] at hpx ⊢
        rw [hpx, hid']
      rw [List.find?_append, hnone, Option.none_or]
      have hfr : (freshRecord c).asset_id = c.asset_id := rfl
      simp only [List.find?_cons, List.find?_nil, hfr, hid]
      have happ : applyCandidate src c (freshRecord c) =
          { freshRecord c with
              matchList := [c.matchInfo],
              ranks := setRank [] src c.rank } := by
        rw [applyCandidate, if_pos (beq_iff_eq.mpr hfr)]
        rfl
      simp only [Option.map_some', happ]
      simp [matchesOf, findRecord, hnone, freshRecord]
  · rw [if_neg hid]
    have hid' : ¬ c.asset_id = aid := fun he => hid (beq_iff_eq.mpr he)
    have hmain : ∀ r₀, st.find? (fun r => r.asset_id == aid) = some r₀ →
        applyCandidate src c r₀ = r₀ := by
      intro r₀ hf
      have hpr₀ : (r₀.asset_id == aid) = true :=
        List.find?_some (p := fun r : AssetRecord => r.asset_id == aid) hf
      rw [applyCandidate, if_neg]
      intro hc
      apply hid'
      rw [beq_iff_eq] at hpr₀ hc
      rw [← hc, hpr₀]
    by_cases hany : st.any (fun r => r.asset_id == c.asset_id) = true
    · rw [if_pos hany]
      cases hf : st.find? (fun r => r.asset_id == aid) with
      | none => simp [matchesOf, findRecord, hf]
      | some r₀ =>
        simp only [Option.map_some', hmain r₀ hf]
        simp [matchesOf, findRecord, hf]
    · rw [if_neg hany]
      rw [List.find?_append]
      have hfalse : ((freshRecord c).asset_id == aid) = false := by
        cases hb : ((freshRecord c).asset_id == aid) with
        | false => rfl
        | true => exact absurd hb hid
      have hfr : [freshRecord c].find? (fun r => r.asset_id == aid) = none := by
        simp only [List.find?_cons, List.find?_nil, hfalse]
      rw [hfr, Option.or_none]
      cases hf : st.find? (fun r => r.asset_id == aid) with
      | none => simp [matchesOf, findRecord, hf]
      | some r₀ =>
        simp only [Option.map_some', hmain r₀ hf]
        simp [matchesOf, findRecord, hf]

theorem recordMem_mergeOne (st : List AssetRecord) (src : SourceType)
    (c : Candidate) (aid : UUID) :
    recordMem (mergeOne st src c) aid =
      (recordMem st aid || (c.asset_id == aid)) := by
  rw [recordMem, findRecord_mergeOne, Option.isSome_map']
  by_cases hany : st.any (fun r => r.asset_id == c.asset_id) = true
  · rw [if_pos hany]
    by_cases hid : (c.asset_id == aid) = true
    · have hs : (st.find? (fun r => r.asset_id == aid)).isSome = true := by
        rw [List.find?_isSome]
        obtain ⟨r, hr, hpr⟩ := List.any_eq_true.mp hany
        refine ⟨r, hr, ?_⟩
        rw [beq_iff_eq] at hpr ⊢
        rw [hpr, beq_iff_eq.mp hid]
      rw [recordMem, findRecord, hs, hid]
      rfl
    · have hid0 : (c.asset_id == aid) = false := by
        cases hb : (c.asset_id == aid) with
        | false => rfl
        | true => exact absurd hb hid
      rw [recordMem, findRecord, hid0, Bool.or_false]
  · rw [if_neg hany, List.find?_append, Option.isSome_or]
    have hfr : ([freshRecord c].find? (fun r => r.asset_id == aid)).isSome =
        (c.asset_id == aid) := by
      cases hb : (c.asset_id == aid) with
      | false => simp only [List.find?_cons, List.find?_nil,
          show ((freshRecord c).asset_id == aid) = false from hb]; rfl
      | true => simp only [List.find?_cons, List.find?_nil,
          show ((freshRecord c).asset_id == aid) = true from hb]; rfl
    rw [hfr, recordMem, findRecord]

theorem matchesOf_mergeResults (st : List AssetRecord) (l : List Candidate)
    (src : SourceType) (aid : UUID) :
    matchesOf (mergeResults st l src) aid =
      matchesOf st aid ++
        (l.filter (fun c => c.asset_id == aid)).map (·.matchInfo) := by
  induction l generalizing st with
  | nil => simp [mergeResults]
  | cons c cs ih =>
    have h1 : mergeResults st (c :: cs) src =
        mergeResults (mergeOne st src c) cs src := rfl
    rw [h1, ih, matchesOf_mergeOne]
    cases hc : (c.asset_id == aid) <;> simp [List.filter_cons, hc]

theorem recordMem_mergeResults (st : List AssetRecord) (l : List Candidate)
    (src : SourceType) (aid : UUID) :
    recordMem (mergeResults st l src) aid =
      (recordMem st aid || l.any (fun c => c.asset_id == aid)) := by
  induction l generalizing st with
  | nil => simp [mergeResults]
  | cons c cs ih =>
    have h1 : mergeResults st (c :: cs) src =
        mergeResults (mergeOne st src c) cs src := rfl
    rw [h1, ih, recordMem_mergeOne]
    simp [List.any_cons, Bool.or_assoc]

theorem matchesOf_mergeBatches (bs : List (SourceType × List Candidate))
    (aid : UUID) :
    matchesOf (mergeBatches bs) aid =
      bs.flatMap (fun b =>
        (b.2.filter (fun c => c.asset_id == aid)).map (·.matchInfo)) := by
  have gen : ∀ st, matchesOf (bs.foldl (fun st b => mergeResults st b.2 b.1) st) aid =
      matchesOf st aid ++ bs.flatMap (fun b =>
        (b.2.filter (fun c => c.asset_id == aid)).map (·.matchInfo)) := by
    induction bs with
    | nil => intro st; simp
    | cons b rest ih =>
      intro st
      rw [List.foldl_cons, ih, matchesOf_mergeResults]
      simp [List.flatMap_cons, List.append_assoc]
  rw [mergeBatches, gen]
  rfl

theorem recordMem_mergeBatches (bs : List (SourceType × List Candidate))
    (aid : UUID) :
    recordMem (mergeBatches bs) aid =
      bs.any (fun b => b.2.any (fun c => c.asset_id == aid)) := by
  have gen : ∀ st, recordMem (bs.foldl (fun st b => mergeResults st b.2 b.1) st) aid =
      (recordMem st aid ||
        bs.any (fun b => b.2.any (fun c => c.asset_id == aid))) := by
    induction bs with
    | nil => intro st; simp
    | cons b rest ih =>
      intro st
      rw [List.foldl_cons, ih, recordMem_mergeResults]
      simp [List.any_cons, Bool.or_assoc]
  rw [mergeBatches, gen]
  rfl

theorem perm_any_eq {α : Type} {l₁ l₂ : List α} (h : l₁.Perm l₂)
    (p : α → Bool) : l₁.any p = l₂.any p := by
  rw [Bool.eq_iff_iff, List.any_eq_true, List.any_eq_true]
  constructor <;> rintro ⟨x, hx, hp⟩
  · exact ⟨x, h.mem_iff.mp hx, hp⟩
  · exact ⟨x, h.mem_iff.mpr hx, hp⟩

theorem setRank_key_pred (s s' : SourceType) (v : ℚ) :
    ∀ q : SourceType × ℚ,
      (((if q.1 == s then (q.1, v) else q)).1 == s') = (q.1 == s') := by
  intro q
  split <;> rfl

theorem setRank_find_self (ranks : List (SourceType × ℚ)) (s : SourceType)
    (v : ℚ) :
    (setRank ranks s v).find? (fun p => p.1 == s) = some (s, v) := by
  rw [setRank]
  split
  · rename_i hany
    rw [find?_map_pred _ _ _ (setRank_key_pred s s v)]
    have hs : (ranks.find? (fun p => p.1 == s)).isSome = true := by
      rw [List.find?_isSome]
      exact List.any_eq_true.mp hany
    obtain ⟨q₀, hq₀⟩ := Option.isSome_iff_exists.mp hs
    have hp : (q₀.1 == s) = true :=
      List.find?_some (p := fun p : SourceType × ℚ => p.1 == s) hq₀
    rw [hq₀, Option.map_some']
    rw [if_pos hp, beq_iff_eq.mp hp]
  · rename_i hany
    have hnone : ranks.find? (fun p => p.1 == s) = none := by
      rw [List.find?_eq_none]
      intro q hq hpq
      exact hany (List.any_eq_true.mpr ⟨q, hq, hpq⟩)
    rw [List.find?_append, hnone, Option.none_or]
    simp [List.find?_cons, List.find?_nil]

theorem setRank_find_other (ranks : List (SourceType × ℚ)) (s s' : SourceType)
    (v : ℚ) (h : ¬ s' = s) :
    (setRank ranks s v).find? (fun p => p.1 == s') =
      ranks.find? (fun p => p.1 == s') := by
  rw [setRank]
  split
  · rw [find?_map_pred _ _ _ (setRank_key_pred s s' v)]
    cases hf : ranks.find? (fun p => p.1 == s') with
    | none => rfl
    | some q₀ =>
      have hp : (q₀.1 == s') = true :=
        List.find?_some (p := fun p : SourceType × ℚ => p.1 == s') hf
      rw [Option.map_some']
      rw [if_neg]
      intro hc
      apply h
      rw [← beq_iff_eq.mp hp, beq_iff_eq.mp hc]
  · rw [List.find?_append]
    have : (((s, v) : SourceType × ℚ).1 == s') = false := by
      cases hb : (s == s') with
      | false => rfl
      | true => exact absurd (beq_iff_eq.mp hb).symm h
    simp only [List.find?_cons, List.find?_nil, this, Option.or_none]

theorem rankOf_mergeOne (st : List AssetRecord) (src : SourceType)
    (c : Candidate) (aid : UUID) (s : SourceType) :
    rankOf (mergeOne st src c) aid s =
      if (c.asset_id == aid) && (src == s) then some c.rank
      else rankOf st aid s := by
  rw [rankOf, findRecord_mergeOne]
  by_cases hid : (c.asset_id == aid) = true
  · have hid' : c.asset_id = aid := beq_iff_eq.mp hid
    by_cases hany : st.any (fun r => r.asset_id == c.asset_id) = true
    · rw [if_pos hany]
      have hs : (st.find? (fun r => r.asset_id == aid)).isSome = true := by
        rw [List.find?_isSome]
        obtain ⟨r, hr, hpr⟩ := List.any_eq_true.mp hany
        refine ⟨r, hr, ?_⟩
        rw [beq_iff_eq] at hpr ⊢
        rw [hpr, hid']
      obtain ⟨r₀, hr₀⟩ := Option.isSome_iff_exists.mp hs
      have hpr₀ : (r₀.asset_id == aid) = true :=
        List.find?_some (p := fun r : AssetRecord => r.asset_id == aid) hr₀
      have happ : applyCandidate src c r₀ =
          { r₀ with matchList := r₀.matchList ++ [c.matchInfo],
                    ranks := setRank r₀.ranks src c.rank } := by
        rw [applyCandidate, if_pos]
        rw [beq_iff_eq] at hpr₀ ⊢
        rw [hpr₀, hid']
      rw [hr₀]
      simp only [Option.map_some', happ, Option.some_bind]
      by_cases hsrc : (src == s) = true
      · have hsrc' : src = s := beq_iff_eq.mp hsrc
        subst hsrc'
        rw [setRank_find_self]
        rw [if_pos (by rw [hid, Bool.true_and]; exact beq_self_eq_true src)]
        rfl
      · have hsrc0 : (src == s) = false := by
          cases hb : (src == s) with
          | false => rfl
          | true => exact absurd hb hsrc
        rw [setRank_find_other _ _ _ _ (fun he => hsrc (beq_iff_eq.mpr he.symm))]
        rw [if_neg (by rw [hsrc0, Bool.and_false]; exact Bool.false_ne_true)]
        rw [rankOf, findRecord, hr₀]
        rfl
    · rw [if_neg hany]
      have hnone : st.find? (fun r => r.asset_id == aid) = none := by
        rw [List.find?_eq_none]
        intro x hx hpx
        apply hany
        refine List.any_eq_true.mpr ⟨x, hx, ?_⟩
        rw [beq_iff_eq] at hpx ⊢
        rw [hpx, hid']
      rw [List.find?_append, hnone, Option.none_or]
      have hfr : ((freshRecord c).asset_id == aid) = true := hid
      simp only [List.find?_cons, List.find?_nil, hfr]
      have hfr2 : (freshRecord c).asset_id = c.asset_id := rfl
      have happ : applyCandidate src c (freshRecord c) =
          { freshRecord c with
              matchList := [c.matchInfo],
              ranks := setRank [] src c.rank } := by
        rw [applyCandidate, if_pos (beq_iff_eq.mpr hfr2)]
        rfl
      simp only [Option.map_some', happ, Option.some_bind]
      by_cases hsrc : (src == s) = true
      · have hsrc' : src = s := beq_iff_eq.mp hsrc
        subst hsrc'
        rw [setRank_find_self]
        rw [if_pos (by rw [hid, Bool.true_and]; exact beq_self_eq_true src)]
        rfl
      · have hsrc0 : (src == s) = false := by
          cases hb : (src == s) with
          | false => rfl
          | true => exact absurd hb hsrc
        rw [setRank_find_other _ _ _ _ (fun he => hsrc (beq_iff_eq.mpr he.symm))]
        rw [if_neg (by rw [hsrc0, Bool.and_false]; exact Bool.false_ne_true)]
        rw [rankOf, findRecord, hnone]
        rfl
  · have hid0 : (c.asset_id == aid) = false := by
      cases hb : (c.asset_id == aid) with
      | false => rfl
      | true => exact absurd hb hid
    have hrhs : ¬ ((c.asset_id == aid) && (src == s)) = true := by
      rw [hid0, Bool.false_and]
      exact Bool.false_ne_true
    rw [if_neg hrhs]
    have hmain : ∀ r₀, st.find? (fun r => r.asset_id == aid) = some r₀ →
        applyCandidate src c r₀ = r₀ := by
      intro r₀ hf
      have hpr₀ : (r₀.asset_id == aid) = true :=
        List.find?_some (p := fun r : AssetRecord => r.asset_id == aid) hf
      rw [applyCandidate, if_neg]
      intro hc
      apply hid
      rw [beq_iff_eq] at hpr₀ hc ⊢
      rw [← hc, hpr₀]
    by_cases hany : st.any (fun r => r.asset_id == c.asset_id) = true
    · rw [if_pos hany]
      cases hf : st.find? (fun r => r.asset_id == aid) with
      | none => rw [rankOf, findRecord, hf]; rfl
      | some r₀ =>
        simp only [Option.map_some', hmain r₀ hf]
        rw [rankOf, findRecord, hf]
    · rw [if_neg hany, List.find?_append]
      have hfr : [freshRecord c].find? (fun r => r.asset_id == aid) = none := by
        simp only [List.find?_cons, List.find?_nil,
          show ((freshRecord c).asset_id == aid) = false from hid0]
      rw [hfr, Option.or_none]
      cases hf : st.find? (fun r => r.asset_id == aid) with
      | none => rw [rankOf, findRecord, hf]; rfl
      | some r₀ =>
        simp only [Option.map_some', hmain r₀ hf]
        rw [rankOf, findRecord, hf]

theorem rankOf_mergeResults (st : List AssetRecord) (l : List Candidate)
    (src : SourceType) (aid : UUID) (s : SourceType) :
    rankOf (mergeResults st l src) aid s =
      if (src == s) then
        (l.filter (fun c => c.asset_id == aid)).foldl
          (fun _ c => some c.rank) (rankOf st aid s)
      else rankOf st aid s := by
  induction l generalizing st with
  | nil => cases hsrc : (src == s) <;> simp [mergeResults, hsrc]
  | cons c cs ih =>
    have h1 : mergeResults st (c :: cs) src =
        mergeResults (mergeOne st src c) cs src := rfl
    rw [h1, ih, rankOf_mergeOne]
    cases hsrc : (src == s) with
    | true =>
      cases hc : (c.asset_id == aid) with
      | true => simp [List.filter_cons, hc, hsrc]
      | false => simp [List.filter_cons, hc, hsrc]
    | false => simp [hsrc, Bool.and_false]

/-- The per-batch action of the merge fold on one entity's stored rank for
source `s`: a batch of source `s` overwrites the value with the rank of its
last candidate for that entity (if any); other batches leave it unchanged. -/
def rankFoldF (aid : UUID) (s : SourceType) (acc : Option ℚ)
    (b : SourceType × List Candidate) : Option ℚ :=
  if (b.1 == s) then
    (b.2.filter (fun c => c.asset_id == aid)).foldl (fun _ c => some c.rank) acc
  else acc

theorem rankOf_mergeBatches_fold (bs : List (SourceType × List Candidate))
    (aid : UUID) (s : SourceType) : ∀ st,
    rankOf (bs.foldl (fun st b => mergeResults st b.2 b.1) st) aid s =
      bs.foldl (rankFoldF aid s) (rankOf st aid s) := by
  induction bs with
  | nil => intro st; rfl
  | cons b rest ih =>
    intro st
    rw [List.foldl_cons, List.foldl_cons, ih, rankOf_mergeResults]
    rfl

theorem rankFold_no_s (bs : List (SourceType × List Candidate)) (aid : UUID)
    (s : SourceType) (acc : Option ℚ)
    (h : ∀ b ∈ bs, (b.1 == s) = false) :
    bs.foldl (rankFoldF aid s) acc = acc := by
  induction bs generalizing acc with
  | nil => rfl
  | cons b rest ih =>
    rw [List.foldl_cons]
    have hb := h b (List.mem_cons_self b rest)
    rw [show rankFoldF aid s acc b = acc from by rw [rankFoldF, hb]; rfl]
    exact ih acc (fun b' hb' => h b' (List.mem_cons_of_mem b hb'))

theorem rankFold_char (bs : List (SourceType × List Candidate)) (aid : UUID)
    (s : SourceType) (hnd : (bs.map Prod.fst).Nodup) :
    bs.foldl (rankFoldF aid s) none =
      (match bs.find? (fun b => b.1 == s) with
       | some b => (b.2.filter (fun c => c.asset_id == aid)).foldl
           (fun _ c => some c.rank) none
       | none => none) := by
  induction bs with
  | nil => rfl
  | cons b rest ih =>
    rw [List.foldl_cons]
    cases hb : (b.1 == s) with
    | true =>
      have hrest : ∀ b' ∈ rest, (b'.1 == s) = false := by
        intro b' hb'
        cases hb2 : (b'.1 == s) with
        | false => rfl
        | true =>
          exfalso
          have h1 : b.1 = s := beq_iff_eq.mp hb
          have h2 : b'.1 = s := beq_iff_eq.mp hb2
          have hmem : b.1 ∈ rest.map Prod.fst :=
            List.mem_map.mpr ⟨b', hb', by rw [h2, h1]⟩
          exact (List.nodup_cons.mp hnd).1 hmem
      rw [show rankFoldF aid s none b =
          (b.2.filter (fun c => c.asset_id == aid)).foldl
            (fun _ c => some c.rank) none from by rw [rankFoldF, hb]; rfl]
      rw [rankFold_no_s rest aid s _ hrest]
      simp [List.find?_cons, hb]
    | false =>
      rw [show rankFoldF aid s none b = none from by rw [rankFoldF, hb]; rfl]
      rw [ih (List.nodup_cons.mp (by rwa [List.map_cons] at hnd)).2]
      simp [List.find?_cons, hb]

theorem find?_source_perm (bs₁ bs₂ : List (SourceType × List Candidate))
    (hperm : bs₁.Perm bs₂) (hnd : (bs₁.map Prod.fst).Nodup) (s : SourceType) :
    bs₁.find? (fun b => b.1 == s) = bs₂.find? (fun b => b.1 == s) := by
  cases h1 : bs₁.find? (fun b => b.1 == s) with
  | none =>
    rw [eq_comm, List.find?_eq_none]
    intro x hx
    exact List.find?_eq_none.mp h1 x (hperm.mem_iff.mpr hx)
  | some b =>
    have hb_mem : b ∈ bs₁ := List.mem_of_find?_eq_some h1
    have hb_p : (b.1 == s) = true :=
      List.find?_some (p := fun b : SourceType × List Candidate => b.1 == s) h1
    have h2 : (bs₂.find? (fun b => b.1 == s)).isSome = true :=
      List.find?_isSome.mpr ⟨b, hperm.mem_iff.mp hb_mem, hb_p⟩
    obtain ⟨b', hb'⟩ := Option.isSome_iff_exists.mp h2
    have hb'_mem : b' ∈ bs₂ := List.mem_of_find?_eq_some hb'
    have hb'_p : (b'.1 == s) = true :=
      List.find?_some (p := fun b : SourceType × List Candidate => b.1 == s) hb'
    have hbb : b = b' := by
      apply List.inj_on_of_nodup_map hnd hb_mem (hperm.mem_iff.mpr hb'_mem)
      rw [beq_iff_eq.mp hb_p, beq_iff_eq.mp hb'_p]
    rw [hb', hbb]

/-- C8 as amended: for any permutation of the per-adapter batches (with the
adapters carrying pairwise distinct source types), the merged dicts contain
the same entities, each entity's accumulated matches agree as multisets
(hence its combined RRF score is identical), and each entity's per-source
rank score is identical; the first-seen display fields and the order within
the accumulated match list may depend on the merge order. -/
theorem merge_commutative_up_to_permutation
    (bs₁ bs₂ : List (SourceType × List Candidate)) (hperm : bs₁.Perm bs₂)
    (hnd : (bs₁.map Prod.fst).Nodup) :
    (∀ aid, recordMem (mergeBatches bs₁) aid = recordMem (mergeBatches bs₂) aid) ∧
    (∀ aid, (matchesOf (mergeBatches bs₁) aid).Perm
      (matchesOf (mergeBatches bs₂) aid)) ∧
    (∀ aid, calculateRrfScore (matchesOf (mergeBatches bs₁) aid) =
      calculateRrfScore (matchesOf (mergeBatches bs₂) aid)) ∧
    (∀ aid s, rankOf (mergeBatches bs₁) aid s =
      rankOf (mergeBatches bs₂) aid s) := by
  have hmatch : ∀ aid, (matchesOf (mergeBatches bs₁) aid).Perm
      (matchesOf (mergeBatches bs₂) aid) := by
    intro aid
    rw [matchesOf_mergeBatches, matchesOf_mergeBatches]
    exact List.Perm.flatMap_right _ hperm
  refine ⟨?_, hmatch, ?_, ?_⟩
  · intro aid
    rw [recordMem_mergeBatches, recordMem_mergeBatches]
    exact perm_any_eq hperm _
  · intro aid
    exact calculateRrfScore_congr_length _ _ (hmatch aid).length_eq
  · intro aid s
    have hnd₂ : (bs₂.map Prod.fst).Nodup :=
      ((hperm.map Prod.fst).nodup_iff).mp hnd
    rw [mergeBatches, mergeBatches, rankOf_mergeBatches_fold,
      rankOf_mergeBatches_fold]
    have h0 : rankOf ([] : List AssetRecord) aid s = none := rfl
    rw [h0, rankFold_char bs₁ aid s hnd, rankFold_char bs₂ aid s hnd₂,
      find?_source_perm bs₁ bs₂ hperm hnd s]

/-- A transcription candidate for asset 7 (carries a `description`). -/
def transCandidate7 : Candidate :=
  { asset_id := 7, title := some "t", description := some "d",
    asset_type := some "video", status := some "available",
    created_at := some 0
    matchInfo := { type := .transcription, text := some "x", score := 1 }
    rank := 1 }

/-- A scene candidate for the same asset (no `description` display field). -/
def sceneCandidate7 : Candidate :=
  { asset_id := 7, title := some "t", asset_type := some "video",
    status := some "available", created_at := some 0
    matchInfo := { type := .scene, description := some "y", score := 1 }
    rank := 1 }

/-- The two adapter batches in source order. -/
def batchesTS : List (SourceType × List Candidate) :=
  [(SourceType.transcription, [transCandidate7]),
   (SourceType.scene, [sceneCandidate7])]

/-- The same two batches merged in the opposite order. -/
def batchesST : List (SourceType × List Candidate) :=
  [(SourceType.scene, [sceneCandidate7]),
   (SourceType.transcription, [transCandidate7])]

/-- C8 counterexample: merging the two adapter lists in the opposite order
yields a different aggregate record for asset 7 — the `description` display
field is populated in one order and `None` in the other, and the accumulated
match list is in a different order — so the merger is not commutative. -/
theorem merge_not_commutative_counterexample :
    batchesTS.Perm batchesST ∧ mergeBatches batchesTS ≠ mergeBatches batchesST := by
  constructor
  · exact List.Perm.swap _ _ _
  · decide

theorem merge_commutative_up_to_permutation_witness :
    (∀ aid, recordMem (mergeBatches batchesTS) aid =
      recordMem (mergeBatches batchesST) aid) ∧
    (∀ aid, (matchesOf (mergeBatches batchesTS) aid).Perm
      (matchesOf (mergeBatches batchesST) aid)) ∧
    (∀ aid, calculateRrfScore (matchesOf (mergeBatches batchesTS) aid) =
      calculateRrfScore (matchesOf (mergeBatches batchesST) aid)) ∧
    (∀ aid s, rankOf (mergeBatches batchesTS) aid s =
      rankOf (mergeBatches batchesST) aid s) :=
  merge_commutative_up_to_permutation batchesTS batchesST
    (List.Perm.swap _ _ _) (by decide)

end Akashi
